import Mathlib

/-!
Shallow embedding of the diimpy core (Dynamic Inoperability Input-Output
Model) and proofs about it.

Conventions:
- Matrices and vectors are lists of rationals (`Mat`, `Vec`), matching the
  numpy arrays of the source; numeric values are modelled exactly in `ℚ`.
- Code that can raise a Python exception is embedded with `Except`
  (the `.error` case is the raised exception); code that returns Python
  `None` on a caught exception is embedded with `Option` (the `none` case
  is the returned `None`).
- Library routines whose numeric output the code consumes (`np.linalg.eig`,
  `math.log`) are modelled by passing their result in as an argument.
-/

namespace Diimpy

abbrev Vec := List ℚ

abbrev Mat := List Vec

/-- `np.zeros(n)`. -/
def zeroVec (n : ℕ) : Vec := List.replicate n 0

/-- Dot product of two vectors (row of `np.matmul`). -/
def dot (u v : Vec) : ℚ := (List.zipWith (fun a b => a * b) u v).sum

/-- `np.matmul(m, v)` for a matrix and a vector. -/
def matVec (m : Mat) (v : Vec) : Vec := m.map (fun r => dot r v)

/-- Elementwise vector addition. -/
def vadd (u v : Vec) : Vec := List.zipWith (fun a b => a + b) u v

/-- Elementwise vector subtraction. -/
def vsub (u v : Vec) : Vec := List.zipWith (fun a b => a - b) u v

/-- `v[v > 1.0] = 1.0`: clamp entries above 1 down to 1; nothing else changes. -/
def clampUpper1 (v : Vec) : Vec := v.map (fun x => if x > 1 then 1 else x)

/-- `np.identity n`. -/
def identityMat (n : ℕ) : Mat :=
  (List.range n).map (fun i => (List.range n).map (fun j => if i = j then (1 : ℚ) else 0))

/-- Entry lookup with numpy-style 0 default for out-of-range (only used
in-range in the proofs). -/
def getEntry (m : Mat) (i j : ℕ) : ℚ := (m.getD i []).getD j 0

/-- `np.matmul` of two matrices. -/
def matMul (a b : Mat) : Mat :=
  a.map (fun r => (List.range (b.headD []).length).map (fun j => dot r (b.map (fun br => br.getD j 0))))

/-- `np.linalg.matrix_power(m, k)`. -/
def matPow (m : Mat) : ℕ → Mat
  | 0 => identityMat m.length
  | k + 1 => matMul (matPow m k) m

end Diimpy

namespace Diimpy

/-!
## Perturbation (src/diimpy/perturbation.py)

`Perturbation` state after `_init_perturbation`: the resolved sector indices
(`pindex`), the inclusive time windows (`ptime`), the magnitudes (`cvalue`)
and the shared base vector `c0` (set to `np.zeros(len(infra))` at
configuration time).  `cstar` does `ct = self.c0` WITHOUT copying, so the
vector it returns (and mutates) is the very object stored in the state; the
state after a call therefore has `c0` equal to the returned vector.
-/

structure Perturbation where
  pindex : List ℕ
  ptime : List (ℤ × ℤ)
  cvalue : List ℚ
  c0 : Vec
deriving DecidableEq

/-- The window test of `cstar`: `time >= ptime[i][0] and time <= ptime[i][1]`
(both boundaries inclusive). -/
def covers (w : ℤ × ℤ) (t : ℤ) : Bool := decide (w.1 ≤ t ∧ t ≤ w.2)

/-- The `(pindex[i], ptime[i], cvalue[i])` triples iterated by `cstar`. -/
def entries (p : Perturbation) : List (ℕ × (ℤ × ℤ) × ℚ) :=
  p.pindex.zip (p.ptime.zip p.cvalue)

/-- The loop body of `cstar`: for each triple in order, if the window
contains `t`, assign (overwrite) the magnitude at the sector index. -/
def cstarAux : List (ℕ × (ℤ × ℤ) × ℚ) → ℤ → Vec → Vec
  | [], _, ct => ct
  | e :: rest, t, ct =>
      cstarAux rest t (if covers e.2.1 t then ct.set e.1 e.2.2 else ct)

/-- `Perturbation.cstar(time)`: the returned vector.  Starts from the shared
`c0` (no copy is taken in the source). -/
def cstar (p : Perturbation) (t : ℤ) : Vec := cstarAux (entries p) t p.c0

/-- The perturbation state after a `cstar` call: since `ct = self.c0`
aliases, the assignments performed by the call persist in `c0`. -/
def afterCstar (p : Perturbation) (t : ℤ) : Perturbation :=
  { p with c0 := cstar p t }

/-- Specification helper: the magnitude of the LAST configured entry whose
sector index is `j` and whose window contains `t` (later entries overwrite
earlier ones), or `none` if no entry covers `(j, t)`. -/
def coveredValue : List (ℕ × (ℤ × ℤ) × ℚ) → ℤ → ℕ → Option ℚ
  | [], _, _ => none
  | e :: rest, t, j =>
      match coveredValue rest t j with
      | some v => some v
      | none => if e.1 = j ∧ covers e.2.1 t then some e.2.2 else none

/-- `_init_perturbation`'s label resolution: `self.__infra.index(item)` for
each item of `pinfra`; an absent label raises `ValueError` (embedded as
`.error` carrying the label), aborting the configuration. -/
def resolveSectors (infra : List String) : List String → Except String (List ℕ)
  | [] => .ok []
  | s :: rest =>
      match List.findIdx? (fun x => x == s) infra with
      | none => .error s
      | some i =>
          match resolveSectors infra rest with
          | .ok l => .ok (i :: l)
          | .error e => .error e

/-!
## Stability check (src/diimpy/diim.py, `_check_stability`)

The source computes `evals, _ = np.linalg.eig(self.astar)` and then
`lambda_0 = np.abs(np.real(evals.max()))`; it raises iff `lambda_0 >= 1`.
The eigenvalue computation is a library routine, so its result is the
input of the embedded check; for real eigenvalue lists (`np.real` is then
the identity) `evals.max()` is the list maximum.
-/

/-- `evals.max()` on a (nonempty) list; 0 on the empty list, which the
source never passes (there is always at least one infrastructure). -/
def listMax : List ℚ → ℚ
  | [] => 0
  | x :: xs => xs.foldl max x

/-- `lambda_0 = np.abs(np.real(evals.max()))` for a real eigenvalue list. -/
def lambdaZero (evals : List ℚ) : ℚ := |listMax evals|

/-- `_check_stability`: raises (`.error`, carrying `lambda_0`) iff
`lambda_0 >= 1`; otherwise falls through (`.ok`).  `np.linalg.inv` computing
the S matrix runs only after an `.ok` outcome. -/
def check_stability (evals : List ℚ) : Except ℚ Unit :=
  if 1 ≤ lambdaZero evals then .error (lambdaZero evals) else .ok ()

/-- Specification-side definition (spec: "spectral radius (max |eigenvalue|)
must be < 1"): the spectral radius of a matrix with the given real
eigenvalues, i.e. the largest eigenvalue magnitude. -/
def spectralRadius (evals : List ℚ) : ℚ := listMax (evals.map (fun x => |x|))

/-!
## K matrix (src/diimpy/diim.py, `_init_k_matrix` and `_calc_k_matrix`)
-/

/-- `self.__KMAT_MAX = 0.9999`. -/
def kmatMax : ℚ := 9999 / 10000

/-- The clamp applied to K entries: `kmat[kmat > 1.0] = KMAT_MAX` then
`kmat[kmat < 0.0] = 0.0`.  Note an entry of exactly 1.0 is kept. -/
def clampK (x : ℚ) : ℚ := if x > 1 then kmatMax else if x < 0 then 0 else x

/-- The in-place clamping of the whole K data array. -/
def fixKEntries (m : Mat) : Mat := m.map (fun r => r.map clampK)

/-- Numpy-broadcast entry access: a 1×n array against an n×n identity
repeats its single row; otherwise plain indexing. -/
def broadcastGet (m : Mat) (i j : ℕ) : ℚ :=
  if m.length = 1 then (m.getD 0 []).getD j 0 else getEntry m i j

/-- `_init_k_matrix`, explicit-data branch: clamp the supplied entries,
check the column count, then `np.multiply(np.identity(n), kmat)`
(elementwise product with the identity, with numpy broadcasting for a
single-row array); a wrong column count raises. -/
def init_k_matrix_data (kdata : Mat) (n : ℕ) : Except String Mat :=
  let fixed := fixKEntries kdata
  if (fixed.headD []).length = n then
    .ok ((List.range n).map (fun i =>
      (List.range n).map (fun j =>
        (if i = j then (1 : ℚ) else 0) * broadcastGet fixed i j)))
  else .error "bad size of K matrix"

/-- `_calc_k_matrix`: `(-log(lambda) / tau) / (1 - diag(astar))`, then the
same clamps.  `math.log` is a library routine, so `-log(lambda)` is passed
in as `negLogLambda`.  The result is a length-n VECTOR (numpy 1-D array),
not an n×n matrix. -/
def calc_k_matrix (negLogLambda : ℚ) (tau astarDiag : List ℚ) : Vec :=
  List.zipWith (fun t d => clampK ((negLogLambda / t) / (1 - d))) tau astarDiag

/-- `_init_k_matrix`, default branch: `np.identity(n)` (diagonal entries
are exactly 1.0). -/
def init_k_matrix_default (n : ℕ) : Mat := identityMat n

/-!
## Simulation engine (src/diimpy/diim.py)
-/

/-- `inoperability`: `q = np.matmul(self.smat, self.perturb.cstar())` with
`q[q > 1.0] = 1.0`; `cstar()` defaults to time 0. -/
def inoperability (smat : Mat) (p : Perturbation) : Vec :=
  clampUpper1 (matVec smat (cstar p 0))

/-- One step of the `dynamic_inoperability` recurrence:
`K·(A*·q + c - q) + q`, clamped above at 1. -/
def dynStep (kmat astar : Mat) (c q : Vec) : Vec :=
  clampUpper1 (vadd (matVec kmat (vsub (vadd (matVec astar q) c) q)) q)

/-- One loop iteration at time `t`: evaluate `cstar` on the current
perturbation state, step `q`, and keep the mutated perturbation state. -/
def stepPair (kmat astar : Mat) (t : ℤ) (s : Vec × Perturbation) : Vec × Perturbation :=
  let c := cstar s.2 t
  (dynStep kmat astar c s.1, afterCstar s.2 t)

/-- The rows written by the loop `for k in range(1, time_steps)`: starting
at time index `k` with state `s`, produce `fuel` rows. -/
def dynRows (kmat astar : Mat) : ℕ → ℕ → (Vec × Perturbation) → List (ℤ × Vec)
  | 0, _, _ => []
  | fuel + 1, k, s =>
      let s1 := stepPair kmat astar (k : ℤ) s
      ((k : ℤ), s1.1) :: dynRows kmat astar fuel (k + 1) s1

/-- `dynamic_inoperability`: the returned `qt` array as a list of
(time index, vector) rows.  `qt` is zero-initialised with
`max(time_steps, 1)` rows; the loop writes rows `1 .. time_steps-1`, so
row 0 is always `(0, zeros(n))`. -/
def dynamic_inoperability (kmat astar : Mat) (q0 : Vec) (p : Perturbation)
    (timeSteps n : ℕ) : List (ℤ × Vec) :=
  ((0 : ℤ), zeroVec n) :: dynRows kmat astar (timeSteps - 1) 1 (q0, p)

/-- The specification-side stateful recurrence: `q[0] = q(0)` with the
configured perturbation state, and
`q[k+1] = clamp(K·(A*·q[k] + c(k+1) - q[k]) + q[k])` where `c(k+1)` is
`cstar` evaluated on the state left by the previous steps. -/
def qSeq (kmat astar : Mat) (q0 : Vec) (p : Perturbation) : ℕ → Vec × Perturbation
  | 0 => (q0, p)
  | k + 1 => stepPair kmat astar ((k + 1 : ℕ) : ℤ) (qSeq kmat astar q0 p k)

/-!
## Sensitivity indices (src/diimpy/diim.py)

`dependency`, `influence`, `overall_dependency`, `overall_influence` all
accumulate an off-diagonal sum per row (or column) and divide the numpy
float array by `n - 1.0`.  Floats appear here only through that division,
which is exact except when the divisor is zero; `FVal` records the IEEE
outcome of the division (`0.0/0.0 = nan`, `x/0.0 = ±inf`). -/

inductive FVal
  | fin (q : ℚ)
  | nan
  | pinf
  | ninf
deriving DecidableEq

/-- Numpy elementwise float division of exactly-represented values. -/
def npDiv (x y : ℚ) : FVal :=
  if y = 0 then (if x = 0 then .nan else if x > 0 then .pinf else .ninf)
  else .fin (x / y)

/-- `di = sum of astar[i, j] over j in range(n), j != i`. -/
def offDiagRowSum (m : Mat) (n i : ℕ) : ℚ :=
  (((List.range n).filter (fun j => j != i)).map (fun j => getEntry m i j)).sum

/-- `rj = sum of astar[i, j] over i in range(n), i != j`. -/
def offDiagColSum (m : Mat) (n j : ℕ) : ℚ :=
  (((List.range n).filter (fun i => i != j)).map (fun i => getEntry m i j)).sum

/-- `dependency`: demand mode only (`None` otherwise); `delta / (n - 1.0)`. -/
def dependency (mode : String) (astar : Mat) (n : ℕ) : Option (List FVal) :=
  if mode = "demand" then
    some ((List.range n).map (fun i => npDiv (offDiagRowSum astar n i) ((n : ℚ) - 1)))
  else none

/-- `influence`: demand mode only; `rho / (n - 1.0)`. -/
def influence (mode : String) (astar : Mat) (n : ℕ) : Option (List FVal) :=
  if mode = "demand" then
    some ((List.range n).map (fun j => npDiv (offDiagColSum astar n j) ((n : ℚ) - 1)))
  else none

/-- `overall_dependency`: same row formula with the S matrix. -/
def overall_dependency (mode : String) (smat : Mat) (n : ℕ) : Option (List FVal) :=
  if mode = "demand" then
    some ((List.range n).map (fun i => npDiv (offDiagRowSum smat n i) ((n : ℚ) - 1)))
  else none

/-- `overall_influence`: same column formula with the S matrix. -/
def overall_influence (mode : String) (smat : Mat) (n : ℕ) : Option (List FVal) :=
  if mode = "demand" then
    some ((List.range n).map (fun j => npDiv (offDiagColSum smat n j) ((n : ℚ) - 1)))
  else none

/-- `interdependency_index`: resolve both labels with `list.index` inside a
`try`; a `ValueError` (unknown label) is caught and `None` is returned;
otherwise `np.linalg.matrix_power(astar, order)[i, j]`. -/
def interdependency_index (infra : List String) (astar : Mat)
    (isector jsector : String) (order : ℕ) : Option ℚ :=
  match List.findIdx? (fun x => x == isector) infra,
        List.findIdx? (fun x => x == jsector) infra with
  | some i, some j => some (getEntry (matPow astar order) i j)
  | _, _ => none

/-!
## Consequence mapper (src/diimpy/mapping.py)

`_map_to_interdep(consequence, scale)` selects the power-law parameters
`(a, b)`: the 5-point constants by default, the 4-point constants when
`scale == "4-point"`; it raises no exception for any scale, so the call
outcome is always `some` of the selected parameters (the element value is
then `a * consequence ** b`). -/

def fivePointA : ℚ := 8 / 1000

def fivePointB : ℚ := 2569323442 / 1000000000

def fourPointA : ℚ := 1 / 100

def fourPointB : ℚ := 2821928095 / 1000000000

/-- The `(a, b)` parameters `_map_to_interdep` uses for a given scale. -/
def mapToInterdepParams (scale : String) : ℚ × ℚ :=
  if scale = "4-point" then (fourPointA, fourPointB) else (fivePointA, fivePointB)

/-- The call outcome of `_map_to_interdep` for a given scale: `some`
parameters when it returns a value, `none` if it raised.  The source has no
raise path, so every scale yields `some`. -/
def mapToInterdepRun (scale : String) : Option (ℚ × ℚ) :=
  some (mapToInterdepParams scale)

/-!
## Helper lemmas
-/

theorem cstarAux_length (t : ℤ) :
    ∀ (es : List (ℕ × (ℤ × ℤ) × ℚ)) (ct : Vec), (cstarAux es t ct).length = ct.length
  | [], _ => rfl
  | e :: rest, ct => by
      rw [cstarAux, cstarAux_length t rest]
      split <;> simp

/-- The value `cstar`'s loop leaves at an in-range index `j`: the magnitude
of the last entry covering `(j, t)`, or the untouched base value. -/
theorem cstarAux_getElem (t : ℤ) (j : ℕ) :
    ∀ (es : List (ℕ × (ℤ × ℤ) × ℚ)) (ct : Vec), j < ct.length →
      (cstarAux es t ct)[j]? = some ((coveredValue es t j).getD (ct.getD j 0))
  | [], ct, hj => by
      simp [cstarAux, coveredValue, List.getElem?_eq_getElem hj]
  | e :: rest, ct, hj => by
      rw [cstarAux]
      by_cases hc : covers e.2.1 t = true
      · by_cases hej : e.1 = j
        · rw [if_pos hc,
            cstarAux_getElem t j rest (ct.set e.1 e.2.2) (by simpa using hj)]
          have hset : (ct.set e.1 e.2.2).getD j 0 = e.2.2 := by
            rw [hej]
            simp [List.getElem?_set_self hj]
          rw [hset, coveredValue]
          cases hcv : coveredValue rest t j <;> simp [hcv, hej, hc]
        · rw [if_pos hc,
            cstarAux_getElem t j rest (ct.set e.1 e.2.2) (by simpa using hj)]
          have hset : (ct.set e.1 e.2.2).getD j 0 = ct.getD j 0 := by
            simp [List.getElem?_set_ne hej]
          rw [hset, coveredValue]
          cases hcv : coveredValue rest t j <;> simp [hcv, hej]
      · rw [if_neg hc, cstarAux_getElem t j rest ct hj, coveredValue]
        cases hcv : coveredValue rest t j <;> simp [hcv, hc]

/-- At an index no configured entry covers at time `t`, the loop does not
write, so the base vector's value is returned unchanged. -/
theorem cstarAux_getElem_uncovered (t : ℤ) (j : ℕ) :
    ∀ (es : List (ℕ × (ℤ × ℤ) × ℚ)) (ct : Vec),
      (∀ e ∈ es, ¬(e.1 = j ∧ covers e.2.1 t = true)) →
      (cstarAux es t ct)[j]? = ct[j]?
  | [], _, _ => rfl
  | e :: rest, ct, h => by
      rw [cstarAux]
      have hrest : ∀ x ∈ rest, ¬(x.1 = j ∧ covers x.2.1 t = true) := by
        intro x hx
        exact h x (List.mem_cons_of_mem e hx)
      by_cases hc : covers e.2.1 t = true
      · have hej : e.1 ≠ j := fun hej =>
          (h e (List.mem_cons_self e rest)) ⟨hej, hc⟩
        rw [if_pos hc, cstarAux_getElem_uncovered t j rest _ hrest]
        exact List.getElem?_set_ne hej
      · rw [if_neg hc]
        exact cstarAux_getElem_uncovered t j rest ct hrest

theorem coveredValue_eq_none (t : ℤ) (j : ℕ) :
    ∀ es, (∀ e ∈ es, ¬(e.1 = j ∧ covers e.2.1 t = true)) →
      coveredValue es t j = none
  | [], _ => rfl
  | e :: rest, h => by
      rw [coveredValue,
        coveredValue_eq_none t j rest
          (fun x hx => h x (List.mem_cons_of_mem e hx))]
      have he := h e (List.mem_cons_self e rest)
      simp only [not_and] at he
      by_cases hej : e.1 = j
      · simp [hej, he hej]
      · simp [hej]

/-- Bottom-up iteration of the loop body: apply `stepPair` at times
`k, k+1, ..., k+m-1`. -/
def iterSteps (kmat astar : Mat) : ℕ → ℕ → (Vec × Perturbation) → Vec × Perturbation
  | 0, _, s => s
  | m + 1, k, s => iterSteps kmat astar m (k + 1) (stepPair kmat astar (k : ℤ) s)

theorem iterSteps_succ (kmat astar : Mat) :
    ∀ (m k : ℕ) (s : Vec × Perturbation),
      iterSteps kmat astar (m + 1) k s =
        stepPair kmat astar ((k + m : ℕ) : ℤ) (iterSteps kmat astar m k s)
  | 0, k, s => by simp [iterSteps]
  | m + 1, k, s => by
      rw [iterSteps, iterSteps_succ kmat astar m (k + 1), iterSteps]
      congr 2
      omega

theorem qSeq_eq_iterSteps (kmat astar : Mat) (q0 : Vec) (p : Perturbation) :
    ∀ k, qSeq kmat astar q0 p k = iterSteps kmat astar k 1 (q0, p)
  | 0 => rfl
  | k + 1 => by
      rw [qSeq, qSeq_eq_iterSteps kmat astar q0 p k, iterSteps_succ]
      congr 1
      omega

theorem dynRows_length (kmat astar : Mat) :
    ∀ (fuel k : ℕ) (s : Vec × Perturbation),
      (dynRows kmat astar fuel k s).length = fuel
  | 0, _, _ => rfl
  | fuel + 1, k, s => by
      rw [dynRows]
      simp [dynRows_length kmat astar fuel]

theorem dynRows_getElem (kmat astar : Mat) :
    ∀ (i fuel k : ℕ) (s : Vec × Perturbation), i < fuel →
      (dynRows kmat astar fuel k s)[i]? =
        some (((k + i : ℕ) : ℤ), (iterSteps kmat astar (i + 1) k s).1)
  | 0, fuel + 1, k, s, _ => by
      simp [dynRows, iterSteps]
  | i + 1, fuel + 1, k, s, hi => by
      rw [dynRows]
      have ih := dynRows_getElem kmat astar i fuel (k + 1)
        (stepPair kmat astar (k : ℤ) s) (by omega)
      simp only [List.getElem?_cons_succ, ih, iterSteps]
      congr 2
      omega

/-- `clampK` always lands in `[0, 1]` (the value 1 itself is reachable:
`clampK 1 = 1`). -/
theorem clampK_range (x : ℚ) : 0 ≤ clampK x ∧ clampK x ≤ 1 := by
  unfold clampK kmatMax
  split
  · constructor <;> norm_num
  · split
    · norm_num
    · constructor <;> linarith

theorem getD_map_clampK_range (r : Vec) (j : ℕ) :
    0 ≤ (r.map clampK).getD j 0 ∧ (r.map clampK).getD j 0 ≤ 1 := by
  rcases lt_or_le j (r.map clampK).length with h | h
  · rw [List.getD_eq_getElem _ _ h]
    have := List.getElem_map (f := clampK) (l := r)
      (h := by simpa using h)
    rw [this]
    exact clampK_range _
  · rw [List.getD_eq_default _ _ h]
    norm_num

theorem fixKEntries_getD (mm : Mat) (i : ℕ) :
    (fixKEntries mm).getD i [] = (mm.getD i []).map clampK := by
  rcases lt_or_le i mm.length with h | h
  · rw [fixKEntries]
    rw [List.getD_eq_getElem _ _ (by simpa using h), List.getD_eq_getElem _ _ h]
    simp
  · rw [fixKEntries]
    rw [List.getD_eq_default _ _ (by simpa using h), List.getD_eq_default _ _ h]
    rfl

theorem broadcastGet_fixK_range (mm : Mat) (i j : ℕ) :
    0 ≤ broadcastGet (fixKEntries mm) i j ∧ broadcastGet (fixKEntries mm) i j ≤ 1 := by
  unfold broadcastGet getEntry
  split <;> rw [fixKEntries_getD] <;> exact getD_map_clampK_range _ _

theorem mem_zipWith {α β γ : Type} (f : α → β → γ) (c : γ) :
    ∀ (l1 : List α) (l2 : List β), c ∈ List.zipWith f l1 l2 →
      ∃ a b, c = f a b
  | [], _, h => by simp at h
  | _ :: _, [], h => by simp at h
  | a :: l1, b :: l2, h => by
      rcases List.mem_cons.1 h with h1 | h1
      · exact ⟨a, b, h1⟩
      · exact mem_zipWith f c l1 l2 h1

theorem getD_range_map {α : Type} (n : ℕ) (f : ℕ → α) (i : ℕ) (d : α) (h : i < n) :
    ((List.range n).map f).getD i d = f i := by
  rw [List.getD_eq_getElem _ _ (by simpa using h)]
  simp

theorem getD_range_map_oob {α : Type} (n : ℕ) (f : ℕ → α) (i : ℕ) (d : α) (h : n ≤ i) :
    ((List.range n).map f).getD i d = d := by
  apply List.getD_eq_default
  simpa using h

/-!
## Claim theorems
-/

/-- Claim C1 (code bug): the stability check is supposed to reject every A*
whose spectral radius (largest eigenvalue magnitude) is ≥ 1, but the code
computes `abs(real(evals.max()))` — the absolute value of the LARGEST
eigenvalue, not the largest absolute value.  On the eigenvalue list
`[1/2, -6/5]` (e.g. A* = diag(1/2, -6/5), dominant eigenvalue magnitude
6/5 ≥ 1) the check passes (`.ok`), no ModelUnstable error is raised, and
construction goes on to produce S. -/
theorem c1_stability_check_accepts_unstable_matrix :
    check_stability [(1 : ℚ)/2, -(6/5)] = .ok () ∧
    spectralRadius [(1 : ℚ)/2, -(6/5)] = 6/5 ∧
    (1 : ℚ) ≤ spectralRadius [(1 : ℚ)/2, -(6/5)] := by
  refine ⟨?_, ?_, ?_⟩
  · norm_num [check_stability, lambdaZero, listMax, max_def, abs_of_nonneg]
  · norm_num [spectralRadius, listMax, max_def, abs_of_nonneg, abs_of_nonpos]
  · norm_num [spectralRadius, listMax, max_def, abs_of_nonneg, abs_of_nonpos]

/-- Claim C3 (counterexample): with q(0) = [1/2] and time_steps = 1 the
claim requires a single-row trajectory whose vector equals q(0) unchanged,
but the code returns the zero-initialised row `(0, [0])`, and `[0] ≠ [1/2]`. -/
theorem c3_short_trajectory_counterexample :
    dynamic_inoperability [[1]] [[0]] [(1 : ℚ)/2] ⟨[], [], [], [0]⟩ 1 1 =
      [((0 : ℤ), [(0 : ℚ)])] ∧
    [(0 : ℚ)] ≠ [(1 : ℚ)/2] := by
  constructor
  · norm_num [dynamic_inoperability, dynRows, zeroVec]
  · simp only [ne_eq, List.cons.injEq, and_true]
    norm_num

/-- Claim C3 (amended): for `time_steps ≤ 1` (including the unset default
0) no recurrence step is performed and the result is the single
zero-initialised row `(0, zeros(n))` — which equals q(0) only when q(0) is
the zero vector; q(0) itself is not copied into the trajectory. -/
theorem c3_short_trajectory (kmat astar : Mat) (q0 : Vec) (p : Perturbation)
    (timeSteps n : ℕ) (h : timeSteps ≤ 1) :
    dynamic_inoperability kmat astar q0 p timeSteps n = [((0 : ℤ), zeroVec n)] := by
  have h1 : timeSteps - 1 = 0 := by omega
  rw [dynamic_inoperability, h1, dynRows]

/-- Witness for C3's amended theorem at time_steps = 1, n = 1, q(0) = [1/2]. -/
theorem c3_short_trajectory_witness :
    (1 : ℕ) ≤ 1 ∧
    dynamic_inoperability [[1]] [[0]] [(1 : ℚ)/2] ⟨[], [], [], [0]⟩ 1 1 =
      [((0 : ℤ), zeroVec 1)] :=
  ⟨le_refl 1,
    c3_short_trajectory [[1]] [[0]] [(1 : ℚ)/2] ⟨[], [], [], [0]⟩ 1 1 (le_refl 1)⟩

/-- Claim C8 (counterexample): the claim requires every scale other than
"5-point" and "4-point" to fail with InvalidConfig, but on scale "3-point"
the mapper returns a value (it silently selects the 5-point power-law
parameters as the default). -/
theorem c8_mapper_counterexample :
    mapToInterdepRun "3-point" ≠ none ∧
    mapToInterdepRun "3-point" = some (fivePointA, fivePointB) := by
  constructor
  · simp [mapToInterdepRun]
  · rw [mapToInterdepRun, mapToInterdepParams, if_neg (by decide)]

/-- Claim C8 (amended): the mapper computes value = a · score^b with
(a, b) = (0.01, 2.821928095) when the scale argument is "4-point", and with
the 5-point constants (0.008, 2.569323442) for EVERY other scale argument
(the 5-point pair is the silent default); no scale makes it fail. -/
theorem c8_mapper_params (scale : String) :
    mapToInterdepRun scale = some (mapToInterdepParams scale) ∧
    mapToInterdepParams "4-point" = (fourPointA, fourPointB) ∧
    (scale ≠ "4-point" → mapToInterdepParams scale = (fivePointA, fivePointB)) := by
  refine ⟨rfl, by rw [mapToInterdepParams, if_pos rfl], fun h => ?_⟩
  rw [mapToInterdepParams, if_neg h]

/-- Witness for C8's amended theorem at the concrete scale "3-point". -/
theorem c8_mapper_params_witness :
    mapToInterdepRun "3-point" = some (mapToInterdepParams "3-point") ∧
    mapToInterdepParams "3-point" = (fivePointA, fivePointB) :=
  ⟨(c8_mapper_params "3-point").1, (c8_mapper_params "3-point").2.2 (by decide)⟩

/-- Claim C2 (counterexample): n = 1 model with K = [[1]], A* = [[0]],
q(0) = [1/2], a perturbation of magnitude 1/2 on sector 0 with window
[1, 1], time_steps = 3.  The claim requires row 0 to be q(0) = [1/2], but
the code returns (0, [0]); and the claim's recurrence with
forcing(2) = [0] (the window is over) gives q[2] = [0], but the code's row
2 is (2, [1/2]) because the magnitude written at step 1 latches in the
shared perturbation vector. -/
theorem c2_dynamic_rows_counterexample :
    (dynamic_inoperability [[1]] [[0]] [(1 : ℚ)/2]
        ⟨[0], [(1, 1)], [(1 : ℚ)/2], [0]⟩ 3 1)[0]? = some ((0 : ℤ), [(0 : ℚ)]) ∧
    [(0 : ℚ)] ≠ [(1 : ℚ)/2] ∧
    (dynamic_inoperability [[1]] [[0]] [(1 : ℚ)/2]
        ⟨[0], [(1, 1)], [(1 : ℚ)/2], [0]⟩ 3 1)[2]? = some ((2 : ℤ), [(1 : ℚ)/2]) ∧
    cstar ⟨[0], [(1, 1)], [(1 : ℚ)/2], [0]⟩ 2 = [(0 : ℚ)] ∧
    dynStep [[1]] [[0]] (cstar ⟨[0], [(1, 1)], [(1 : ℚ)/2], [0]⟩ 2) [(1 : ℚ)/2] =
      [(0 : ℚ)] ∧
    [(1 : ℚ)/2] ≠ [(0 : ℚ)] := by
  refine ⟨?_, by norm_num, ?_, ?_, ?_, by norm_num⟩ <;>
    norm_num [dynamic_inoperability, dynRows, stepPair, dynStep, cstar, cstarAux,
      entries, covers, afterCstar, zeroVec, clampUpper1, matVec, vadd, vsub, dot]

/-- Claim C2 (amended): for time_steps ≥ 2 the trajectory has exactly one
row per step (time_steps rows); row 0 is the zero-initialised
`(0, zeros(n))`, NOT q(0); and each row k ≥ 1 is `(k, q[k])` where
`q[k] = clamp(K·(A*·q[k-1] + c(k) - q[k-1]) + q[k-1])` with `q[0] = q(0)`
and `c(k)` the statefully evaluated forcing (`cstar` on the perturbation
state left by the previous steps, in which assigned magnitudes latch). -/
theorem c2_dynamic_rows (kmat astar : Mat) (q0 : Vec) (p : Perturbation)
    (timeSteps n : ℕ) (hT : 2 ≤ timeSteps) :
    (dynamic_inoperability kmat astar q0 p timeSteps n).length = timeSteps ∧
    (dynamic_inoperability kmat astar q0 p timeSteps n)[0]? =
      some ((0 : ℤ), zeroVec n) ∧
    (∀ k, 1 ≤ k → k < timeSteps →
      (dynamic_inoperability kmat astar q0 p timeSteps n)[k]? =
        some ((k : ℤ), (qSeq kmat astar q0 p k).1)) ∧
    (∀ k, (qSeq kmat astar q0 p (k + 1)).1 =
      clampUpper1 (vadd (matVec kmat
        (vsub (vadd (matVec astar (qSeq kmat astar q0 p k).1)
                (cstar (qSeq kmat astar q0 p k).2 ((k + 1 : ℕ) : ℤ)))
          (qSeq kmat astar q0 p k).1))
        (qSeq kmat astar q0 p k).1)) := by
  refine ⟨?_, by simp [dynamic_inoperability], ?_, fun k => rfl⟩
  · rw [dynamic_inoperability]
    rw [List.length_cons, dynRows_length]
    omega
  · intro k hk1 hkT
    obtain ⟨m, rfl⟩ : ∃ m, k = m + 1 := ⟨k - 1, by omega⟩
    rw [dynamic_inoperability, List.getElem?_cons_succ,
      dynRows_getElem kmat astar m (timeSteps - 1) 1 (q0, p) (by omega),
      qSeq_eq_iterSteps]
    congr 2
    omega

/-- Witness for C2's amended theorem: K = [[1]], A* = [[0]], q(0) = [1/2],
no perturbation entries, time_steps = 2, n = 1, evaluated at row k = 1. -/
theorem c2_dynamic_rows_witness :
    (2 : ℕ) ≤ 2 ∧
    (dynamic_inoperability [[1]] [[0]] [(1 : ℚ)/2] ⟨[], [], [], [0]⟩ 2 1).length = 2 ∧
    (dynamic_inoperability [[1]] [[0]] [(1 : ℚ)/2] ⟨[], [], [], [0]⟩ 2 1)[1]? =
      some ((1 : ℤ), (qSeq [[1]] [[0]] [(1 : ℚ)/2] ⟨[], [], [], [0]⟩ 1).1) :=
  ⟨le_refl 2,
    (c2_dynamic_rows [[1]] [[0]] [(1 : ℚ)/2] ⟨[], [], [], [0]⟩ 2 1 (le_refl 2)).1,
    (c2_dynamic_rows [[1]] [[0]] [(1 : ℚ)/2] ⟨[], [], [], [0]⟩ 2 1 (le_refl 2)).2.2.1
      1 (le_refl 1) (by omega)⟩

/-- `zeroVec` reads back as 0 at any index. -/
theorem zeroVec_getD (n j : ℕ) : (zeroVec n).getD j 0 = 0 := by
  rcases lt_or_le j n with h | h
  · rw [zeroVec, List.getD_eq_getElem _ _ (by simpa using h)]
    simp
  · rw [zeroVec, List.getD_eq_default _ _ (by simpa using h)]

/-- Claim C4: from a freshly configured perturbation state (base vector
zero), `cstar t` returns an N-vector; at each index the value is the
magnitude of the LAST configured entry whose window contains `t` (later
entries overwrite earlier ones), and 0 at every index no window covers;
window membership is inclusive at both boundaries, and the time just past
the window's end is not covered. -/
theorem c4_forcing_fresh_state (p : Perturbation) (n : ℕ) (t : ℤ)
    (h0 : p.c0 = zeroVec n) :
    (cstar p t).length = n ∧
    (∀ j, j < n → (cstar p t)[j]? = some ((coveredValue (entries p) t j).getD 0)) ∧
    (∀ j, j < n → (∀ e ∈ entries p, ¬(e.1 = j ∧ covers e.2.1 t = true)) →
      (cstar p t)[j]? = some 0) ∧
    (∀ w : ℤ × ℤ, w.1 ≤ w.2 →
      covers w w.1 = true ∧ covers w w.2 = true ∧ covers w (w.2 + 1) = false) := by
  refine ⟨?_, ?_, ?_, ?_⟩
  · rw [cstar, cstarAux_length, h0, zeroVec]
    simp
  · intro j hj
    rw [cstar, cstarAux_getElem t j (entries p) p.c0
        (by rw [h0, zeroVec]; simpa using hj),
      h0, zeroVec_getD]
  · intro j hj hu
    rw [cstar, cstarAux_getElem_uncovered t j (entries p) p.c0 hu, h0, zeroVec]
    simp [hj]
  · intro w hw
    refine ⟨?_, ?_, ?_⟩ <;> simp [covers] <;> omega

/-- Witness for Claim C4: one entry on sector 0, window [0, 2],
magnitude 3/4, evaluated at the inclusive right boundary t = 2. -/
theorem c4_forcing_fresh_state_witness :
    (cstar ⟨[0], [(0, 2)], [(3 : ℚ)/4], [0]⟩ 2).length = 1 ∧
    (cstar ⟨[0], [(0, 2)], [(3 : ℚ)/4], [0]⟩ 2)[0]? =
      some ((coveredValue (entries ⟨[0], [(0, 2)], [(3 : ℚ)/4], [0]⟩) 2 0).getD 0) :=
  ⟨(c4_forcing_fresh_state ⟨[0], [(0, 2)], [(3 : ℚ)/4], [0]⟩ 1 2 rfl).1,
    (c4_forcing_fresh_state ⟨[0], [(0, 2)], [(3 : ℚ)/4], [0]⟩ 1 2 rfl).2.1 0
      (by omega)⟩

/-- Claim C7 (counterexample): with one perturbation entry (sector 0,
window [0, 0], magnitude 1/2), evaluating forcing at t = 1 from the
configured state yields [0]; but after an intervening forcing(0) query the
same forcing(1) query yields [1/2]: a query changed the result of a later
query. -/
theorem c7_purity_counterexample :
    cstar ⟨[0], [(0, 0)], [(1 : ℚ)/2], [0]⟩ 1 = [(0 : ℚ)] ∧
    cstar (afterCstar ⟨[0], [(0, 0)], [(1 : ℚ)/2], [0]⟩ 0) 1 = [(1 : ℚ)/2] ∧
    [(0 : ℚ)] ≠ [(1 : ℚ)/2] := by
  refine ⟨?_, ?_, by norm_num⟩ <;>
    norm_num [cstar, cstarAux, entries, covers, afterCstar]

/-- Claim C7 (amended): simulation queries are deterministic functions of
the model matrices and the perturbation state, but forcing evaluation is
not state-free: a `cstar` call stores the vector it returns as the new
shared base vector, so at any index not covered at a later query time the
later query returns the EARLIER query's value (assigned magnitudes latch)
instead of recomputing from zero. -/
theorem c7_forcing_latches (p : Perturbation) (t tq : ℤ) (j : ℕ)
    (h : ∀ e ∈ entries p, ¬(e.1 = j ∧ covers e.2.1 tq = true)) :
    (afterCstar p t).c0 = cstar p t ∧
    (cstar (afterCstar p t) tq)[j]? = (cstar p t)[j]? := by
  refine ⟨rfl, ?_⟩
  rw [cstar, cstar]
  exact cstarAux_getElem_uncovered tq j (entries p) (cstarAux (entries p) t p.c0) h

/-- Witness for C7's amended theorem: the counterexample configuration,
earlier query at t = 0, later query at t = 1 (uncovered), index 0. -/
theorem c7_forcing_latches_witness :
    (afterCstar ⟨[0], [(0, 0)], [(1 : ℚ)/2], [0]⟩ 0).c0 =
      cstar ⟨[0], [(0, 0)], [(1 : ℚ)/2], [0]⟩ 0 ∧
    (cstar (afterCstar ⟨[0], [(0, 0)], [(1 : ℚ)/2], [0]⟩ 0) 1)[0]? =
      (cstar ⟨[0], [(0, 0)], [(1 : ℚ)/2], [0]⟩ 0)[0]? :=
  c7_forcing_latches ⟨[0], [(0, 0)], [(1 : ℚ)/2], [0]⟩ 0 1 0 (by decide)

/-- Every row of S times the zero vector is zero. -/
theorem dot_zeroVec : ∀ (r : Vec) (n : ℕ), dot r (zeroVec n) = 0
  | [], _ => by simp [dot]
  | a :: r, 0 => by simp [dot, zeroVec]
  | a :: r, n + 1 => by
      have ih := dot_zeroVec r n
      rw [dot, zeroVec] at ih ⊢
      simp only [List.replicate_succ, List.zipWith_cons_cons, List.sum_cons,
        mul_zero, zero_add]
      exact ih

/-- Claim C5: `static_inoperability` returns S·forcing(0) with entries
clamped only from above at 1 (entries ≤ 1, negative ones included, pass
through unchanged; entries > 1 become 1), and an all-zero forcing vector
produces the all-zero result exactly. -/
theorem c5_static_inoperability (smat : Mat) (p : Perturbation) (n : ℕ) :
    (∀ (j : ℕ) (x : ℚ), (matVec smat (cstar p 0))[j]? = some x → x ≤ 1 →
      (inoperability smat p)[j]? = some x) ∧
    (∀ (j : ℕ) (x : ℚ), (matVec smat (cstar p 0))[j]? = some x → 1 < x →
      (inoperability smat p)[j]? = some 1) ∧
    (cstar p 0 = zeroVec n → inoperability smat p = zeroVec smat.length) := by
  refine ⟨?_, ?_, ?_⟩
  · intro j x hx hle
    rw [inoperability, clampUpper1, List.getElem?_map, hx]
    simp [not_lt.2 hle]
  · intro j x hx hgt
    rw [inoperability, clampUpper1, List.getElem?_map, hx]
    simp [hgt]
  · intro hz
    rw [inoperability, hz, matVec]
    have hd : ∀ r ∈ smat, dot r (zeroVec n) = 0 := fun r _ => dot_zeroVec r n
    rw [List.map_congr_left hd, List.map_const']
    rw [clampUpper1, List.map_replicate, zeroVec]
    norm_num

/-- Witness for Claim C5: S = [[3], [-2]] and forcing(0) = [1/2] gives
S·forcing(0) = [3/2, -1], clamped to [1, -1] (the negative entry passes
through); and the all-zero forcing configuration returns the zero vector. -/
theorem c5_static_inoperability_witness :
    (inoperability [[3], [-2]] ⟨[0], [(0, 0)], [(1 : ℚ)/2], [0]⟩)[0]? = some (1 : ℚ) ∧
    (inoperability [[3], [-2]] ⟨[0], [(0, 0)], [(1 : ℚ)/2], [0]⟩)[1]? = some (-1 : ℚ) ∧
    inoperability [[3], [-2]] ⟨[], [], [], [0]⟩ = zeroVec 2 := by
  refine ⟨?_, ?_, ?_⟩
  · exact (c5_static_inoperability [[3], [-2]] ⟨[0], [(0, 0)], [(1 : ℚ)/2], [0]⟩ 1).2.1
      0 (3/2)
      (by norm_num [matVec, dot, cstar, cstarAux, entries, covers])
      (by norm_num)
  · exact (c5_static_inoperability [[3], [-2]] ⟨[0], [(0, 0)], [(1 : ℚ)/2], [0]⟩ 1).1
      1 (-1)
      (by norm_num [matVec, dot, cstar, cstarAux, entries, covers])
      (by norm_num)
  · exact (c5_static_inoperability [[3], [-2]] ⟨[], [], [], [0]⟩ 1).2.2 rfl

/-- Claim C6 (counterexample): the default K matrix source (identity, used
when neither explicit data nor tau values are supplied) has diagonal
entries exactly 1, which is NOT in the claimed range [0, 0.9999]. -/
theorem c6_k_matrix_counterexample :
    getEntry (init_k_matrix_default 2) 0 0 = 1 ∧
    ¬ getEntry (init_k_matrix_default 2) 0 0 ≤ kmatMax := by
  have h : getEntry (init_k_matrix_default 2) 0 0 = 1 := by
    norm_num [init_k_matrix_default, identityMat, getEntry, List.range_succ]
  refine ⟨h, ?_⟩
  rw [h, kmatMax]
  norm_num

/-- Claim C6 (amended): every K entry lies in [0, 1] (not [0, 0.9999]):
supplied entries above 1 are clamped to 0.9999 and below 0 to 0 — so 1.5
becomes 0.9999 and -0.2 becomes 0 — but an entry of exactly 1 is kept, and
the identity default has diagonal entries exactly 1.  The explicit-data and
default sources yield N×N diagonal matrices; the lambda/tau-derived source
yields the length-N vector of diagonal coefficients, clamped the same way. -/
theorem c6_k_matrix_range (kdata : Mat) (n : ℕ) (m : Mat) (negLogLambda : ℚ)
    (tau astarDiag : List ℚ) (hm : init_k_matrix_data kdata n = .ok m) :
    (∀ i j, 0 ≤ getEntry m i j ∧ getEntry m i j ≤ 1) ∧
    (∀ i j, i ≠ j → getEntry m i j = 0) ∧
    clampK (3/2) = kmatMax ∧
    clampK (-(1/5)) = 0 ∧
    clampK 1 = 1 ∧
    (∀ v ∈ calc_k_matrix negLogLambda tau astarDiag, 0 ≤ v ∧ v ≤ 1) ∧
    (∀ i j, 0 ≤ getEntry (init_k_matrix_default n) i j ∧
      getEntry (init_k_matrix_default n) i j ≤ 1) ∧
    (∀ i j, i ≠ j → getEntry (init_k_matrix_default n) i j = 0) := by
  rw [init_k_matrix_data] at hm
  split at hm
  case isFalse => exact absurd hm (by simp)
  case isTrue hcol =>
  have hmeq : m = (List.range n).map (fun i => (List.range n).map (fun j =>
      (if i = j then (1 : ℚ) else 0) * broadcastGet (fixKEntries kdata) i j)) := by
    cases hm
    rfl
  subst hmeq
  refine ⟨?_, ?_, ?_, ?_, ?_, ?_, ?_, ?_⟩
  · intro i j
    rcases lt_or_le i n with hi | hi
    · rw [getEntry, getD_range_map n _ i [] hi]
      rcases lt_or_le j n with hj | hj
      · rw [getD_range_map n _ j 0 hj]
        by_cases hij : i = j
        · subst hij
          simpa using broadcastGet_fixK_range kdata i i
        · simp [hij]
      · rw [getD_range_map_oob n _ j 0 hj]
        norm_num
    · rw [getEntry, getD_range_map_oob n _ i [] hi]
      norm_num
  · intro i j hij
    rcases lt_or_le i n with hi | hi
    · rw [getEntry, getD_range_map n _ i [] hi]
      rcases lt_or_le j n with hj | hj
      · rw [getD_range_map n _ j 0 hj]
        simp [hij]
      · rw [getD_range_map_oob n _ j 0 hj]
    · rw [getEntry, getD_range_map_oob n _ i [] hi]
      rfl
  · rw [clampK, kmatMax]
    norm_num
  · rw [clampK]
    norm_num
  · rw [clampK]
    norm_num
  · intro v hv
    rw [calc_k_matrix] at hv
    rcases mem_zipWith _ v tau astarDiag hv with ⟨a, b, rfl⟩
    exact clampK_range _
  · intro i j
    rcases lt_or_le i n with hi | hi
    · rw [init_k_matrix_default, identityMat, getEntry, getD_range_map n _ i [] hi]
      rcases lt_or_le j n with hj | hj
      · rw [getD_range_map n _ j 0 hj]
        by_cases hij : i = j <;> simp [hij]
      · rw [getD_range_map_oob n _ j 0 hj]
        norm_num
    · rw [init_k_matrix_default, identityMat, getEntry, getD_range_map_oob n _ i [] hi]
      norm_num
  · intro i j hij
    rcases lt_or_le i n with hi | hi
    · rw [init_k_matrix_default, identityMat, getEntry, getD_range_map n _ i [] hi]
      rcases lt_or_le j n with hj | hj
      · rw [getD_range_map n _ j 0 hj]
        simp [hij]
      · rw [getD_range_map_oob n _ j 0 hj]
    · rw [init_k_matrix_default, identityMat, getEntry, getD_range_map_oob n _ i [] hi]
      rfl

/-- Witness for C6's amended theorem: K data supplied as the single row
[1.5, -0.2] for n = 2 is accepted and clamped to diag(0.9999, 0). -/
theorem c6_k_matrix_range_witness :
    clampK (3/2) = kmatMax ∧
    clampK (-(1/5)) = 0 ∧
    (0 ≤ getEntry [[(9999 : ℚ)/10000, 0], [0, 0]] 0 0 ∧
      getEntry [[(9999 : ℚ)/10000, 0], [0, 0]] 0 0 ≤ 1) ∧
    getEntry [[(9999 : ℚ)/10000, 0], [0, 0]] 0 1 = 0 := by
  have hm : init_k_matrix_data [[(3 : ℚ)/2, -(1/5)]] 2 =
      .ok [[(9999 : ℚ)/10000, 0], [0, 0]] := by
    norm_num [init_k_matrix_data, fixKEntries, clampK, broadcastGet, kmatMax,
      getEntry, List.range_succ]
  have h := c6_k_matrix_range [[(3 : ℚ)/2, -(1/5)]] 2
    [[(9999 : ℚ)/10000, 0], [0, 0]] 1 [1] [0] hm
  exact ⟨h.2.2.1, h.2.2.2.1, h.1 0 0, h.2.1 0 1 (by omega)⟩

/-- Claim C9 (counterexample): `interdependency_index` called with the
unknown sector label "SectorX" returns the no-result value `None` (the
lookup `ValueError` is caught inside the function), instead of failing
with an UnknownSector error as the claim requires. -/
theorem c9_unknown_sector_counterexample :
    interdependency_index ["Sector1", "Sector2"] [[0, (3 : ℚ)/10], [(2 : ℚ)/5, 0]]
      "SectorX" "Sector1" 1 = none := by
  rfl

/-- Claim C9 (amended): resolving perturbation sector labels fails
(uncaught exception, the UnknownSector condition) as soon as a referenced
label is absent from the infrastructure list; but `interdependency_index`
catches its lookup failure and returns `None` — a silent no-result — for
an unknown label, rather than failing. -/
theorem c9_unknown_sector (infra pinfra : List String) (s : String) (astar : Mat)
    (a b : String) (k : ℕ) (hs : s ∈ pinfra)
    (hu : List.findIdx? (fun x => x == s) infra = none)
    (hb : List.findIdx? (fun x => x == b) infra = none) :
    (∃ e, resolveSectors infra pinfra = .error e) ∧
    interdependency_index infra astar a b k = none := by
  constructor
  · induction pinfra with
    | nil => exact absurd hs (List.not_mem_nil s)
    | cons x rest ih =>
      rcases List.mem_cons.1 hs with rfl | hrest
      · refine ⟨s, ?_⟩
        rw [resolveSectors, hu]
      · cases hfx : List.findIdx? (fun y => y == x) infra with
        | none =>
          refine ⟨x, ?_⟩
          rw [resolveSectors, hfx]
        | some i =>
          rcases ih hrest with ⟨e, he⟩
          refine ⟨e, ?_⟩
          rw [resolveSectors, hfx, he]
  · rw [interdependency_index, hb]
    cases List.findIdx? (fun x => x == a) infra <;> rfl

/-- Witness for C9's amended theorem: infrastructure {Sector1, Sector2},
perturbation labels [Sector1, SectorX], index query for (Sector1, SectorX). -/
theorem c9_unknown_sector_witness :
    (∃ e, resolveSectors ["Sector1", "Sector2"] ["Sector1", "SectorX"] = .error e) ∧
    interdependency_index ["Sector1", "Sector2"]
      [[0, (3 : ℚ)/10], [(2 : ℚ)/5, 0]] "Sector1" "SectorX" 1 = none :=
  c9_unknown_sector ["Sector1", "Sector2"] ["Sector1", "SectorX"] "SectorX"
    [[0, (3 : ℚ)/10], [(2 : ℚ)/5, 0]] "Sector1" "SectorX" 1
    (by simp) rfl rfl

/-- Claim C10: the four sensitivity indices divide their off-diagonal sums
by N - 1 with no guard.  In demand mode, for N ≥ 2 every returned entry is
a finite value; for N = 1 each operation returns `[NaN]` (numpy's 0.0/0.0),
not an error. -/
theorem c10_sensitivity_div_no_guard (mode : String) (astar smat : Mat) (n : ℕ)
    (hmode : mode = "demand") :
    (2 ≤ n →
      (∀ l, dependency mode astar n = some l → ∀ v ∈ l, ∃ q, v = FVal.fin q) ∧
      (∀ l, influence mode astar n = some l → ∀ v ∈ l, ∃ q, v = FVal.fin q) ∧
      (∀ l, overall_dependency mode smat n = some l → ∀ v ∈ l, ∃ q, v = FVal.fin q) ∧
      (∀ l, overall_influence mode smat n = some l → ∀ v ∈ l, ∃ q, v = FVal.fin q)) ∧
    (n = 1 →
      dependency mode astar n = some [FVal.nan] ∧
      influence mode astar n = some [FVal.nan] ∧
      overall_dependency mode smat n = some [FVal.nan] ∧
      overall_influence mode smat n = some [FVal.nan]) := by
  subst hmode
  have hdiv : 2 ≤ n → ((n : ℚ) - 1) ≠ 0 := by
    intro hn
    have : (2 : ℚ) ≤ (n : ℚ) := by exact_mod_cast hn
    intro hz
    linarith
  have hfin : ∀ (hn : 2 ≤ n) (x : ℚ), ∃ q, npDiv x ((n : ℚ) - 1) = FVal.fin q := by
    intro hn x
    refine ⟨x / ((n : ℚ) - 1), ?_⟩
    rw [npDiv, if_neg (hdiv hn)]
  constructor
  · intro hn
    refine ⟨?_, ?_, ?_, ?_⟩ <;>
      · intro l hl v hv
        simp [dependency, influence, overall_dependency, overall_influence] at hl
        subst hl
        rcases List.mem_map.1 hv with ⟨i, _, rfl⟩
        rcases hfin hn _ with ⟨q, hq⟩
        exact ⟨q, hq⟩
  · intro hn
    subst hn
    refine ⟨?_, ?_, ?_, ?_⟩ <;>
      · norm_num [dependency, influence, overall_dependency, overall_influence,
          offDiagRowSum, offDiagColSum, npDiv, List.range_succ]

/-- Witness for Claim C10 at the one-sector model A* = [[0]], S = [[1]]:
all four indices return [NaN]. -/
theorem c10_sensitivity_div_no_guard_witness :
    dependency "demand" [[0]] 1 = some [FVal.nan] ∧
    influence "demand" [[0]] 1 = some [FVal.nan] ∧
    overall_dependency "demand" [[1]] 1 = some [FVal.nan] ∧
    overall_influence "demand" [[1]] 1 = some [FVal.nan] :=
  (c10_sensitivity_div_no_guard "demand" [[0]] [[1]] 1 rfl).2 rfl

end Diimpy
